import Mathlib

/-!
# People API: handlers and persistence accessor

A shallow embedding of `app.go` and `person.go`: the five HTTP handlers of `App`
and the five persistence functions they call.  The collaborators that are not part
of the repository are modelled next to them:

* `strconv.Atoi` (Go standard library), with its documented behaviour
  "equivalent to ParseInt(s, 10, 0)" on a 64-bit `int`;
* `encoding/json`: `json.Marshal` for the three payload shapes the handlers send;
  the outcome of `Decoder.Decode` on a request body is an input of the handlers;
* `database/sql` over the `people` table of `main_test.go`: the table is a list of
  rows in physical order together with the sequence `people_id_seq`; every error
  the driver can report for a call (connection, parameter out of range for its
  column, row fetch in `Next`, value conversion in `Scan`) is supplied from
  outside as a `Fault`.
-/

set_option autoImplicit false

namespace PeopleApi

/-! ## strconv.Atoi -/

/-- The two error kinds of `strconv.NumError`. -/
inductive NumError
  | ErrSyntax
  | ErrRange
  deriving DecidableEq, Repr

/-- Size of Go `int` in bits on the platforms the service targets. -/
def IntSize : Nat := 64

/-- Largest `uint64`, the `maxVal` of `ParseUint` for bit size 64. -/
def maxUint64 : Nat := 2 ^ 64 - 1

/-- Largest value of Go `int`. -/
def maxInt : Int := 2 ^ (IntSize - 1) - 1

/-- Smallest value of Go `int`. -/
def minInt : Int := -(2 ^ (IntSize - 1))

/-- The digit loop of `strconv.ParseUint(s, 10, 64)`: `n` is the value read so far.
A byte that is not a decimal digit ends the loop with a syntax error and value 0;
a value that no longer fits ends it at once with a range error and `maxVal`,
without looking at the bytes that follow. -/
def parseUintLoop : List Char → Nat → Nat × Option NumError
  | [], n => (n, none)
  | c :: cs, n =>
    if c.isDigit then
      let d := c.toNat - '0'.toNat
      if n ≥ maxUint64 / 10 + 1 then (maxUint64, some NumError.ErrRange)
      else
        let n1 := n * 10 + d
        if n1 > maxUint64 then (maxUint64, some NumError.ErrRange)
        else parseUintLoop cs n1
    else (0, some NumError.ErrSyntax)

/-- Model of `strconv.ParseUint(s, 10, 64)`. -/
def ParseUint (s : List Char) : Nat × Option NumError :=
  match s with
  | [] => (0, some NumError.ErrSyntax)
  | _ => parseUintLoop s 0

/-- Model of `strconv.ParseInt(s, 10, 0)`: an optional sign, then `ParseUint`; a
syntax error yields 0, a magnitude out of range yields the nearest bound of `int`
together with a range error. -/
def ParseInt (s : List Char) : Int × Option NumError :=
  match s with
  | [] => (0, some NumError.ErrSyntax)
  | c :: cs =>
    let neg := c == '-'
    let digits := if c == '+' ∨ c == '-' then cs else s
    match ParseUint digits with
    | (_, some NumError.ErrSyntax) => (0, some NumError.ErrSyntax)
    | (un, _) =>
      let cutoff : Nat := 2 ^ (IntSize - 1)
      if !neg ∧ un ≥ cutoff then ((cutoff : Int) - 1, some NumError.ErrRange)
      else if neg ∧ un > cutoff then (-(cutoff : Int), some NumError.ErrRange)
      else (if neg then -(un : Int) else (un : Int), none)

/-- Model of `strconv.Atoi`, by its documentation `ParseInt(s, 10, 0)` converted
to `int`. -/
def Atoi (s : String) : Int × Option NumError :=
  ParseInt s.toList

/-- The route pattern of the id segment, `[0-9]+`, from `initializeRoutes`. -/
def matchesIdPattern (s : String) : Bool :=
  !s.toList.isEmpty && s.toList.all Char.isDigit

/-! ## Data model -/

/-- The record `person` of `person.go`. -/
structure person where
  ID : Int
  Name : String
  Age : Int
  Gender : String
  deriving DecidableEq, Repr

/-- Errors seen by the handlers: the sentinel `sql.ErrNoRows`, or any other error
reported by the driver, known by its text. -/
inductive GoError
  | ErrNoRows
  | driver (text : String)
  deriving DecidableEq, Repr

/-- The method `Error()` of an error value. -/
def GoError.Error : GoError → String
  | GoError.ErrNoRows => "sql: no rows in result set"
  | GoError.driver text => text

/-- The SQL statements issued by `person.go` and by `clearTable` of `main_test.go`,
with their bound parameters in the order of the source. -/
inductive Stmt
  | selectById (id : Int)
  | insertReturningId (name : String) (age : Int) (gender : String)
  | updateById (name : String) (age : Int) (gender : String) (id : Int)
  | deleteById (id : Int)
  | selectRange (limit : Int) (offset : Int)
  | deleteAll
  | restartSeq
  deriving DecidableEq, Repr

/-- The statement text as written in the source. -/
def Stmt.text : Stmt → String
  | Stmt.selectById _ => "SELECT name, age, gender FROM people WHERE id=$1"
  | Stmt.insertReturningId _ _ _ =>
      "INSERT INTO people(name, age, gender) VALUES($1, $2, $3) RETURNING id"
  | Stmt.updateById _ _ _ _ => "UPDATE people SET name=$1, age=$2, gender = $3 WHERE id=$4"
  | Stmt.deleteById _ => "DELETE FROM people WHERE id=$1"
  | Stmt.selectRange _ _ => "SELECT id, name, age, gender FROM people LIMIT $1 OFFSET $2"
  | Stmt.deleteAll => "DELETE FROM people"
  | Stmt.restartSeq => "ALTER SEQUENCE people_id_seq RESTART WITH 1"

/-- The database behind `*sql.DB`: the rows of table `people` in physical order,
the next value of `people_id_seq`, and the statements issued so far.  A row holds
the four columns as the values `Scan` delivers; a column value `Scan` cannot
convert (a NULL `gender` written by another client) is a `Fault.scan` on that row. -/
structure DB where
  people : List person
  people_id_seq : Int
  log : List Stmt
  deriving DecidableEq, Repr

/-- What the driver reports for one call, `none` meaning no error:

* `stmt`: an error of the statement itself (connection lost, parameter rejected,
  ...); for `QueryRow` this includes an error met while fetching the first row,
  which `(*sql.Row).Scan` returns in the same way;
* `scan`: for the row at each position of the result set, an error of `Scan`;
* `next`: for each position of a result set walked with `for rows.Next()`, an
  error met by `rows.Next()` while fetching the row at that position; `Next` then
  returns false and the error is kept for `rows.Err()`. -/
structure Fault where
  stmt : Option String
  scan : Nat → Option String
  next : Nat → Option String

/-- The call goes through without any driver error. -/
def Fault.ok : Fault := ⟨none, fun _ => none, fun _ => none⟩

/-- Overwrite of the three data columns of a row, the `SET` list of the update. -/
def setColumns (name : String) (age : Int) (gender : String) (id : Int) (r : person) : person :=
  if r.ID = id then { r with Name := name, Age := age, Gender := gender } else r

/-- Execution of one statement: the statement is logged; a statement fault leaves
the data untouched; otherwise the statement acts on the table and yields its
result set (empty for statements without one). -/
def DB.run (db : DB) (f : Fault) (s : Stmt) : Except GoError (List person) × DB :=
  let db := { db with log := db.log ++ [s] }
  match f.stmt with
  | some e => (Except.error (GoError.driver e), db)
  | none =>
    match s with
    | Stmt.selectById id => (Except.ok (db.people.filter (fun r => r.ID = id)), db)
    | Stmt.insertReturningId name age gender =>
      let id := db.people_id_seq
      let db := { db with people_id_seq := id + 1 }
      if db.people.any (fun r => r.ID = id) then
        (Except.error (GoError.driver
          "pq: duplicate key value violates unique constraint \"people_pkey\""), db)
      else
        let r : person := ⟨id, name, age, gender⟩
        (Except.ok [r], { db with people := db.people ++ [r] })
    | Stmt.updateById name age gender id =>
      (Except.ok [], { db with people := db.people.map (setColumns name age gender id) })
    | Stmt.deleteById id =>
      (Except.ok [], { db with people := db.people.filter (fun r => r.ID ≠ id) })
    | Stmt.selectRange limit offset =>
      if limit < 0 then (Except.error (GoError.driver "pq: LIMIT must not be negative"), db)
      else if offset < 0 then
        (Except.error (GoError.driver "pq: OFFSET must not be negative"), db)
      else (Except.ok ((db.people.drop offset.toNat).take limit.toNat), db)
    | Stmt.deleteAll => (Except.ok [], { db with people := [] })
    | Stmt.restartSeq => (Except.ok [], { db with people_id_seq := 1 })

/-- The method `(*sql.Row).Scan` after `QueryRow`: the error of the query if any,
`sql.ErrNoRows` when the result set is empty, else the first row unless its
conversion fails. -/
def RowScan (f : Fault) (res : Except GoError (List person)) : Except GoError person :=
  match res with
  | Except.error e => Except.error e
  | Except.ok [] => Except.error GoError.ErrNoRows
  | Except.ok (r :: _) =>
    match f.scan 0 with
    | some e => Except.error (GoError.driver e)
    | none => Except.ok r

/-! ## person.go -/

/-- `func (p *person) getPerson(db *sql.DB) error`: the receiver after the call,
the error, and the database. -/
def person.getPerson (p : person) (f : Fault) (db : DB) : (person × Option GoError) × DB :=
  match db.run f (Stmt.selectById p.ID) with
  | (res, db1) =>
    match RowScan f res with
    | Except.error e => ((p, some e), db1)
    | Except.ok r => (({ p with Name := r.Name, Age := r.Age, Gender := r.Gender }, none), db1)

/-- `func (p *person) createPerson(db *sql.DB) error`: the generated id is scanned
into the receiver. -/
def person.createPerson (p : person) (f : Fault) (db : DB) : (person × Option GoError) × DB :=
  match db.run f (Stmt.insertReturningId p.Name p.Age p.Gender) with
  | (res, db1) =>
    match RowScan f res with
    | Except.error e => ((p, some e), db1)
    | Except.ok r => (({ p with ID := r.ID }, none), db1)

/-- `func (p *person) updatePerson(db *sql.DB) error`: the result of `Exec` is
dropped, only its error is returned. -/
def person.updatePerson (p : person) (f : Fault) (db : DB) : Option GoError × DB :=
  match db.run f (Stmt.updateById p.Name p.Age p.Gender p.ID) with
  | (Except.error e, db1) => (some e, db1)
  | (Except.ok _, db1) => (none, db1)

/-- `func (p *person) deletePerson(db *sql.DB) error`. -/
def person.deletePerson (p : person) (f : Fault) (db : DB) : Option GoError × DB :=
  match db.run f (Stmt.deleteById p.ID) with
  | (Except.error e, db1) => (some e, db1)
  | (Except.ok _, db1) => (none, db1)

/-- The loop `for rows.Next()` of `getPeople` with the `return people, nil` that
follows it: `k` is the position of the next row, `people` the slice built so far.
The loop ends when `rows.Next()` returns false, which is at the end of the result
set and also when the driver fails to fetch the next row; `rows.Err()` is not
read, so in both cases the slice built so far is returned with a nil error.  A
failing `Scan` returns the nil slice and the error; otherwise the scanned row is
appended. -/
def scanLoop (f : Fault) : List person → Nat → List person → Option (List person) × Option GoError
  | [], _, people => (some people, none)
  | r :: rest, k, people =>
    match f.next k with
    | some _ => (some people, none)
    | none =>
      match f.scan k with
      | some e => (none, some (GoError.driver e))
      | none => scanLoop f rest (k + 1) (people ++ [⟨r.ID, r.Name, r.Age, r.Gender⟩])

/-- `func getPeople(db *sql.DB, start, count int) ([]person, error)`.  A slice is
`none` when nil and `some xs` otherwise; `people := []person{}` is `some []`. -/
def getPeople (f : Fault) (db : DB) (start count : Int) :
    (Option (List person) × Option GoError) × DB :=
  match db.run f (Stmt.selectRange count start) with
  | (Except.error e, db1) => ((none, some e), db1)
  | (Except.ok rows, db1) => (scanLoop f rows 0 [], db1)

/-! ## encoding/json and the response envelope -/

/-- The values handed to `respondWithJSON`: a person, a slice of persons (`none`
is the nil slice), or a `map[string]string` with a single key. -/
inductive Payload
  | person (p : PeopleApi.person)
  | people (ps : Option (List PeopleApi.person))
  | entry (key value : String)
  deriving DecidableEq, Repr

/-- Escaping of one character inside a JSON string by `json.Marshal` (which
escapes for HTML): quote and backslash, the three short escapes, other control
characters and `<`, `>`, `&` as `\u00XX`, and the two line separators. -/
def escapeChar (c : Char) : List Char :=
  if c = '\\' ∨ c = '"' then ['\\', c]
  else if c = '\n' then ['\\', 'n']
  else if c = '\r' then ['\\', 'r']
  else if c = '\t' then ['\\', 't']
  else if c.toNat < 32 ∨ c = '<' ∨ c = '>' ∨ c = '&' then
    ['\\', 'u', '0', '0', Nat.digitChar (c.toNat / 16), Nat.digitChar (c.toNat % 16)]
  else if c.toNat = 8232 ∨ c.toNat = 8233 then
    ['\\', 'u', '2', '0', '2', Nat.digitChar (c.toNat % 16)]
  else [c]

/-- A Go string as a JSON string literal. -/
def marshalString (s : String) : String :=
  "\"" ++ String.mk (s.toList.flatMap escapeChar) ++ "\""

/-- A Go `int` as a JSON number. -/
def marshalInt (i : Int) : String :=
  toString i

/-- The struct `person` with its `json` tags, fields in declaration order. -/
def marshalPerson (p : person) : String :=
  "\x7b\"id\":" ++ marshalInt p.ID ++ ",\"name\":" ++ marshalString p.Name ++
    ",\"age\":" ++ marshalInt p.Age ++ ",\"gender\":" ++ marshalString p.Gender ++ "\x7d"

/-- Model of `json.Marshal` on the payloads of this service; a nil slice is
`null`, an empty one `[]`. -/
def Marshal : Payload → String
  | Payload.person p => marshalPerson p
  | Payload.people none => "null"
  | Payload.people (some ps) => "[" ++ String.intercalate "," (ps.map marshalPerson) ++ "]"
  | Payload.entry key value =>
      "\x7b" ++ marshalString key ++ ":" ++ marshalString value ++ "\x7d"

/-- What a handler wrote to the `http.ResponseWriter`: status code, the
`Content-Type` header, the payload given to `json.Marshal` and the body written. -/
structure Response where
  code : Nat
  contentType : String
  payload : Payload
  body : String
  deriving DecidableEq, Repr

def StatusOK : Nat := 200
def StatusCreated : Nat := 201
def StatusBadRequest : Nat := 400
def StatusNotFound : Nat := 404
def StatusInternalServerError : Nat := 500

/-- `func respondWithJSON(w http.ResponseWriter, code int, payload interface{})`. -/
def respondWithJSON (code : Nat) (payload : Payload) : Response :=
  { code := code, contentType := "application/json", payload := payload, body := Marshal payload }

/-- `func respondWithError(w http.ResponseWriter, code int, message string)`. -/
def respondWithError (code : Nat) (message : String) : Response :=
  respondWithJSON code (Payload.entry "error" message)

/-! ## app.go -/

/-- The handlers use only the field `DB` of `App`. -/
abbrev App := DB

/-- `func (a *App) getPeople`: `countForm` and `startForm` are
`r.FormValue("count")` and `r.FormValue("start")` (empty when absent). -/
def App.getPeople (f : Fault) (a : App) (countForm startForm : String) : Response × App :=
  let count := (Atoi countForm).1
  let start := (Atoi startForm).1
  let count := if count > 10 ∨ count < 1 then 10 else count
  let start := if start < 0 then 0 else start
  match PeopleApi.getPeople f a start count with
  | ((_, some err), a1) => (respondWithError StatusInternalServerError err.Error, a1)
  | ((people, none), a1) => (respondWithJSON StatusOK (Payload.people people), a1)

/-- `func (a *App) createPerson`: `body` is the outcome of `decoder.Decode(&p)` on
the request body, `none` when it returns an error, else the decoded `p`. -/
def App.createPerson (f : Fault) (a : App) (body : Option person) : Response × App :=
  match body with
  | none => (respondWithError StatusBadRequest "Invalid request payload", a)
  | some p =>
    match p.createPerson f a with
    | ((_, some err), a1) => (respondWithError StatusInternalServerError err.Error, a1)
    | ((p1, none), a1) => (respondWithJSON StatusCreated (Payload.person p1), a1)

/-- `func (a *App) getPerson`: `idVar` is `mux.Vars(r)["id"]`. -/
def App.getPerson (f : Fault) (a : App) (idVar : String) : Response × App :=
  match Atoi idVar with
  | (_, some _) => (respondWithError StatusBadRequest "Invalid person ID", a)
  | (id, none) =>
    match person.getPerson ⟨id, "", 0, ""⟩ f a with
    | ((_, some err), a1) =>
      match err with
      | GoError.ErrNoRows => (respondWithError StatusNotFound "Person not found", a1)
      | _ => (respondWithError StatusInternalServerError err.Error, a1)
    | ((p, none), a1) => (respondWithJSON StatusOK (Payload.person p), a1)

/-- `func (a *App) updatePerson`: the id is parsed first, then the body decoded,
then the path id stored into `p.ID`. -/
def App.updatePerson (f : Fault) (a : App) (idVar : String) (body : Option person) :
    Response × App :=
  match Atoi idVar with
  | (_, some _) => (respondWithError StatusBadRequest "Invalid person ID", a)
  | (id, none) =>
    match body with
    | none => (respondWithError StatusBadRequest "Invalid resquest payload", a)
    | some p0 =>
      let p : person := { p0 with ID := id }
      match p.updatePerson f a with
      | (some err, a1) => (respondWithError StatusInternalServerError err.Error, a1)
      | (none, a1) => (respondWithJSON StatusOK (Payload.person p), a1)

/-- `func (a *App) deletePerson`. -/
def App.deletePerson (f : Fault) (a : App) (idVar : String) : Response × App :=
  match Atoi idVar with
  | (_, some _) => (respondWithError StatusBadRequest "Invalid Person ID", a)
  | (id, none) =>
    match person.deletePerson ⟨id, "", 0, ""⟩ f a with
    | (some err, a1) => (respondWithError StatusInternalServerError err.Error, a1)
    | (none, a1) => (respondWithJSON StatusOK (Payload.entry "result" "success"), a1)

/-- `func clearTable()` of `main_test.go`, both statements executing. -/
def clearTable (a : App) : App :=
  ((a.run Fault.ok Stmt.deleteAll).2.run Fault.ok Stmt.restartSeq).2

/-! ## Lemmas on Atoi -/

theorem ParseInt_error_value (s : List Char) (e : NumError) (h : (ParseInt s).2 = some e) :
    (e = NumError.ErrSyntax ∧ (ParseInt s).1 = 0) ∨
    (e = NumError.ErrRange ∧ ((ParseInt s).1 = maxInt ∨ (ParseInt s).1 = minInt)) := by
  unfold ParseInt at h ⊢
  cases s with
  | nil => simp at h ⊢; exact Or.inl h.symm
  | cons c cs =>
    simp only at h ⊢
    generalize ParseUint (if (c == '+') = true ∨ (c == '-') = true then cs else c :: cs) = r at h ⊢
    obtain ⟨un, err⟩ := r
    rcases err with _ | e'
    · simp only at h ⊢
      split_ifs at h ⊢ <;> simp_all [maxInt, minInt, IntSize]
    · cases e'
      · simp at h ⊢; exact Or.inl h.symm
      · simp only at h ⊢
        split_ifs at h ⊢ <;> simp_all [maxInt, minInt, IntSize]

theorem ParseInt_range_sign (s : List Char) (h : (ParseInt s).2 = some NumError.ErrRange) :
    (ParseInt s).1 = (if s.head? = some '-' then minInt else maxInt) := by
  unfold ParseInt at h ⊢
  cases s with
  | nil => simp at h
  | cons c cs =>
    simp only at h ⊢
    generalize ParseUint (if (c == '+') = true ∨ (c == '-') = true then cs else c :: cs) = r at h ⊢
    obtain ⟨un, err⟩ := r
    rcases err with _ | e'
    · simp only at h ⊢
      split_ifs at h ⊢ <;> simp_all [maxInt, minInt, IntSize]
    · cases e'
      · simp at h
      · simp only at h ⊢
        split_ifs at h ⊢ <;> simp_all [maxInt, minInt, IntSize]

/-! ## Lemmas on the list operation -/

theorem getPeople_db (f : Fault) (a : DB) (start count : Int) :
    (getPeople f a start count).2 = { a with log := a.log ++ [Stmt.selectRange count start] } := by
  unfold getPeople DB.run
  cases hf : f.stmt with
  | some e => simp
  | none =>
    simp only
    split_ifs <;> rfl

theorem App_getPeople_eq (f : Fault) (a : App) (countForm startForm : String) :
    App.getPeople f a countForm startForm =
      (match (getPeople f a
          (if 0 ≤ (Atoi startForm).1 then (Atoi startForm).1 else 0)
          (if 1 ≤ (Atoi countForm).1 ∧ (Atoi countForm).1 ≤ 10 then (Atoi countForm).1
            else 10)).1 with
        | (_, some err) => respondWithError 500 err.Error
        | (people, none) => respondWithJSON 200 (Payload.people people),
       { a with log := a.log ++ [Stmt.selectRange
          (if 1 ≤ (Atoi countForm).1 ∧ (Atoi countForm).1 ≤ 10 then (Atoi countForm).1 else 10)
          (if 0 ≤ (Atoi startForm).1 then (Atoi startForm).1 else 0)] }) := by
  have hl : (if (Atoi countForm).1 > 10 ∨ (Atoi countForm).1 < 1 then 10 else (Atoi countForm).1)
      = (if 1 ≤ (Atoi countForm).1 ∧ (Atoi countForm).1 ≤ 10 then (Atoi countForm).1 else 10) := by
    split_ifs <;> omega
  have ho : (if (Atoi startForm).1 < 0 then 0 else (Atoi startForm).1)
      = (if 0 ≤ (Atoi startForm).1 then (Atoi startForm).1 else 0) := by
    split_ifs <;> omega
  unfold App.getPeople
  simp only
  rw [hl, ho, ← getPeople_db f a]
  generalize getPeople f a _ _ = r
  obtain ⟨⟨ps, err⟩, a1⟩ := r
  cases err <;> rfl

theorem App_getPeople_log (f : Fault) (a : App) (countForm startForm : String) :
    (App.getPeople f a countForm startForm).2.log = a.log ++ [Stmt.selectRange
      (if 1 ≤ (Atoi countForm).1 ∧ (Atoi countForm).1 ≤ 10 then (Atoi countForm).1 else 10)
      (if 0 ≤ (Atoi startForm).1 then (Atoi startForm).1 else 0)] := by
  rw [App_getPeople_eq]

/-! ## The list handler: effective limit and offset -/

/-- C1: for the integers `count` and `start` parsed from the query parameters, the
list handler issues the ranged query of `getPeople` with limit `count` when
`1 ≤ count ≤ 10` and 10 otherwise, and offset `start` when `start ≥ 0` and 0
otherwise; its response and database are those of that call; the limit lies in
[1,10] and the offset is not negative. -/
theorem getPeople_handler_clamps (f : Fault) (a : App) (countForm startForm : String)
    (count start : Int) (hc : (Atoi countForm).1 = count) (hs : (Atoi startForm).1 = start) :
    (App.getPeople f a countForm startForm).2.log =
        a.log ++ [Stmt.selectRange (if 1 ≤ count ∧ count ≤ 10 then count else 10)
                    (if 0 ≤ start then start else 0)] ∧
      (App.getPeople f a countForm startForm).2 =
        (getPeople f a (if 0 ≤ start then start else 0)
          (if 1 ≤ count ∧ count ≤ 10 then count else 10)).2 ∧
      (App.getPeople f a countForm startForm).1 =
        (match (getPeople f a (if 0 ≤ start then start else 0)
            (if 1 ≤ count ∧ count ≤ 10 then count else 10)).1 with
          | (_, some err) => respondWithError 500 err.Error
          | (people, none) => respondWithJSON 200 (Payload.people people)) ∧
      1 ≤ (if 1 ≤ count ∧ count ≤ 10 then count else 10) ∧
      (if 1 ≤ count ∧ count ≤ 10 then count else 10) ≤ 10 ∧
      0 ≤ (if 0 ≤ start then start else 0) := by
  subst hc hs
  refine ⟨?_, ?_, ?_, ?_, ?_, ?_⟩
  · rw [App_getPeople_eq]
  · rw [App_getPeople_eq, getPeople_db]
  · rw [App_getPeople_eq]
  · split_ifs <;> omega
  · split_ifs <;> omega
  · split_ifs <;> omega

/-- Witness of C1 at `count=25`, `start=-3`: the query runs with limit 10, offset 0. -/
theorem getPeople_handler_clamps_witness :
    (Atoi "25").1 = 25 ∧ (Atoi "-3").1 = -3 ∧
    (App.getPeople Fault.ok ⟨[], 1, []⟩ "25" "-3").2.log = [Stmt.selectRange 10 0] := by
  refine ⟨by decide, by decide, ?_⟩
  simpa using (getPeople_handler_clamps Fault.ok ⟨[], 1, []⟩ "25" "-3" 25 (-3)
    (by decide) (by decide)).1

/-- C2, counterexample: `start=99999999999999999999` fails to parse (range error),
yet the value is not zero but the largest `int`, and that is the offset used. -/
theorem getPeople_handler_overflowing_start :
    (Atoi "99999999999999999999").2 = some NumError.ErrRange ∧
    (Atoi "99999999999999999999").1 = 9223372036854775807 ∧
    (App.getPeople Fault.ok ⟨[], 1, []⟩ "" "99999999999999999999").2.log =
      [Stmt.selectRange 10 9223372036854775807] ∧
    (App.getPeople Fault.ok ⟨[], 1, []⟩ "" "99999999999999999999").2.log ≠
      [Stmt.selectRange 10 0] := by
  decide

/-- C2, amended: a `count` that fails to parse gives limit 10; a `count` or `start`
that fails with a syntax error is zero, one that fails with a range error is the
nearest bound of `int` (the smallest for a string with a leading minus, else the
largest); the offset is 0 after a syntax error of `start` and after a range error
of a `start` with a leading minus, and the largest `int` after any other range
error of `start`. -/
theorem getPeople_handler_parse_failures (f : Fault) (a : App) (countForm startForm : String) :
    ((Atoi countForm).2 ≠ none →
      ((Atoi countForm).2 = some NumError.ErrSyntax → (Atoi countForm).1 = 0) ∧
      ((Atoi countForm).2 = some NumError.ErrRange → (Atoi countForm).1 =
        (if countForm.toList.head? = some '-' then minInt else maxInt)) ∧
      ∃ offset, (App.getPeople f a countForm startForm).2.log =
        a.log ++ [Stmt.selectRange 10 offset]) ∧
    ((Atoi startForm).2 = some NumError.ErrSyntax →
      (Atoi startForm).1 = 0 ∧
      ∃ limit, (App.getPeople f a countForm startForm).2.log =
        a.log ++ [Stmt.selectRange limit 0]) ∧
    ((Atoi startForm).2 = some NumError.ErrRange →
      (Atoi startForm).1 = (if startForm.toList.head? = some '-' then minInt else maxInt) ∧
      ∃ limit, (App.getPeople f a countForm startForm).2.log =
        a.log ++ [Stmt.selectRange limit
          (if startForm.toList.head? = some '-' then 0 else maxInt)]) := by
  refine ⟨?_, ?_, ?_⟩
  · intro h
    obtain ⟨e, he⟩ := Option.ne_none_iff_exists'.mp h
    have hv := ParseInt_error_value countForm.toList e he
    refine ⟨?_, ParseInt_range_sign countForm.toList,
      (if 0 ≤ (Atoi startForm).1 then (Atoi startForm).1 else 0),
      (App_getPeople_log f a countForm startForm).trans ?_⟩
    · intro hsyn
      have : e = NumError.ErrSyntax := by
        have := he.symm.trans hsyn
        simpa using this
      rcases hv with hv | hv
      · exact hv.2
      · rw [this] at hv; exact absurd hv.1 (by decide)
    · have h10 : (if 1 ≤ (Atoi countForm).1 ∧ (Atoi countForm).1 ≤ 10 then (Atoi countForm).1
          else 10) = 10 := by
        rcases hv with hv | hv
        · have h0 : (Atoi countForm).1 = 0 := hv.2
          rw [h0]; rfl
        · rcases hv.2 with h1 | h1
          · have h0 : (Atoi countForm).1 = maxInt := h1
            rw [h0]; decide
          · have h0 : (Atoi countForm).1 = minInt := h1
            rw [h0]; decide
      rw [h10]
  · intro h
    have hv := ParseInt_error_value startForm.toList _ h
    have h0 : (Atoi startForm).1 = 0 := by
      rcases hv with hv | hv
      · exact hv.2
      · exact absurd hv.1 (by decide)
    refine ⟨h0, (if 1 ≤ (Atoi countForm).1 ∧ (Atoi countForm).1 ≤ 10 then (Atoi countForm).1
      else 10), (App_getPeople_log f a countForm startForm).trans ?_⟩
    rw [h0]; rfl
  · intro h
    have hv : (Atoi startForm).1 = _ := ParseInt_range_sign startForm.toList h
    refine ⟨hv, (if 1 ≤ (Atoi countForm).1 ∧ (Atoi countForm).1 ≤ 10 then (Atoi countForm).1
      else 10), (App_getPeople_log f a countForm startForm).trans ?_⟩
    rw [hv]
    have hmin : ¬ (0 : Int) ≤ minInt := by decide
    have hmax : (0 : Int) ≤ maxInt := by decide
    by_cases hneg : startForm.toList.head? = some '-'
    · rw [if_pos hneg, if_pos hneg, if_neg hmin]
    · rw [if_neg hneg, if_neg hneg, if_pos hmax]

/-- Witness of C2 amended: an unparsable `count` with an overflowing `start`. -/
theorem getPeople_handler_parse_failures_witness :
    (Atoi "abc").2 ≠ none ∧ (Atoi "99999999999999999999").2 = some NumError.ErrRange ∧
    (∃ offset, (App.getPeople Fault.ok ⟨[], 1, []⟩ "abc" "99999999999999999999").2.log =
      [] ++ [Stmt.selectRange 10 offset]) ∧
    (Atoi "99999999999999999999").1 = maxInt :=
  ⟨by decide, by decide,
    ((getPeople_handler_parse_failures Fault.ok ⟨[], 1, []⟩ "abc" "99999999999999999999").1
      (by decide)).2.2,
    ((getPeople_handler_parse_failures Fault.ok ⟨[], 1, []⟩ "abc" "99999999999999999999").2.2
      (by decide)).1⟩

/-! ## The get handler -/

@[simp] theorem respondWithJSON_code (c : Nat) (p : Payload) : (respondWithJSON c p).code = c := rfl

@[simp] theorem respondWithError_code (c : Nat) (m : String) : (respondWithError c m).code = c := rfl

theorem person_getPerson_eq (p : person) (f : Fault) (a : DB) :
    person.getPerson p f a =
      ((match f.stmt with
        | some e => (p, some (GoError.driver e))
        | none =>
          match a.people.filter (fun r => r.ID = p.ID) with
          | [] => (p, some GoError.ErrNoRows)
          | r :: _ =>
            match f.scan 0 with
            | some e => (p, some (GoError.driver e))
            | none => (⟨p.ID, r.Name, r.Age, r.Gender⟩, none)),
       { a with log := a.log ++ [Stmt.selectById p.ID] }) := by
  unfold person.getPerson DB.run RowScan
  cases hf : f.stmt with
  | some e => rfl
  | none =>
    simp only
    cases hrows : a.people.filter (fun r => r.ID = p.ID) with
    | nil => rfl
    | cons r rest =>
      simp only
      cases hs : f.scan 0 <;> rfl

theorem App_getPerson_eq (f : Fault) (a : App) (idVar : String) (id : Int)
    (h : Atoi idVar = (id, none)) :
    App.getPerson f a idVar =
      (match (person.getPerson ⟨id, "", 0, ""⟩ f a).1 with
        | (_, some GoError.ErrNoRows) => respondWithError 404 "Person not found"
        | (_, some err) => respondWithError 500 err.Error
        | (p, none) => respondWithJSON 200 (Payload.person p),
       (person.getPerson ⟨id, "", 0, ""⟩ f a).2) := by
  unfold App.getPerson
  rw [h]
  simp only
  generalize person.getPerson ⟨id, "", 0, ""⟩ f a = r
  obtain ⟨⟨p, err⟩, a1⟩ := r
  rcases err with _ | e
  · rfl
  · cases e <;> rfl

/-- C3: in the get handler, the response is 404 "Person not found" exactly when the point
lookup reports `sql.ErrNoRows` (which is when the statement runs and no row has the id); any
other lookup error gives 500 with the text of the error; a lookup without error gives 200
with the stored row under the path id. -/
theorem getPerson_handler_status (f : Fault) (a : App) (idVar : String) (id : Int)
    (h : Atoi idVar = (id, none)) :
    ((App.getPerson f a idVar).1 = respondWithError 404 "Person not found" ↔
        (person.getPerson ⟨id, "", 0, ""⟩ f a).1.2 = some GoError.ErrNoRows) ∧
    ((App.getPerson f a idVar).1.code = 404 ↔
        (person.getPerson ⟨id, "", 0, ""⟩ f a).1.2 = some GoError.ErrNoRows) ∧
    ((person.getPerson ⟨id, "", 0, ""⟩ f a).1.2 = some GoError.ErrNoRows ↔
        f.stmt = none ∧ ∀ r ∈ a.people, r.ID ≠ id) ∧
    (respondWithError 404 "Person not found").body = "\x7b\"error\":\"Person not found\"\x7d" ∧
    (∀ e, (person.getPerson ⟨id, "", 0, ""⟩ f a).1.2 = some e → e ≠ GoError.ErrNoRows →
        (App.getPerson f a idVar).1 = respondWithError 500 e.Error) ∧
    ((person.getPerson ⟨id, "", 0, ""⟩ f a).1.2 = none →
        ∃ r, (a.people.filter (fun r => r.ID = id)).head? = some r ∧ r ∈ a.people ∧ r.ID = id ∧
          (App.getPerson f a idVar).1 =
            respondWithJSON 200 (Payload.person ⟨id, r.Name, r.Age, r.Gender⟩)) := by
  rw [App_getPerson_eq f a idVar id h, person_getPerson_eq]
  refine ⟨?_, ?_, ?_, by decide, ?_, ?_⟩
  all_goals
    cases hf : f.stmt with
    | some e => simp [respondWithError, respondWithJSON]
    | none =>
      cases hrows : a.people.filter (fun r => r.ID = id) with
      | nil =>
        have hall : ∀ r ∈ a.people, r.ID ≠ id := by
          intro r hr hid
          have : r ∈ a.people.filter (fun r => r.ID = id) := by
            simp [List.mem_filter, hr, hid]
          rw [hrows] at this
          simp at this
        simp [hall] <;> exact hall
      | cons r rest =>
        have hmem : r ∈ a.people.filter (fun r => r.ID = id) := by rw [hrows]; simp
        have hr : r ∈ a.people ∧ r.ID = id := by simpa [List.mem_filter] using hmem
        cases hs : f.scan 0 with
        | some e => simp [respondWithError, respondWithJSON]; try exact ⟨r, hr.1, hr.2⟩
        | none => simp [respondWithError, respondWithJSON, hr]; try exact ⟨r, hr.1, hr.2⟩


/-- Witness of C3: the request of `TestGetNonExistentPerson`. -/
theorem getPerson_handler_status_witness :
    Atoi "1" = (1, none) ∧
    (App.getPerson Fault.ok (clearTable ⟨[], 1, []⟩) "1").1 =
      respondWithError 404 "Person not found" :=
  ⟨by decide, (getPerson_handler_status Fault.ok (clearTable ⟨[], 1, []⟩) "1" 1 (by decide)).1.mpr
    (by decide)⟩

/-! ## Lemmas on the write operations -/

theorem person_updatePerson_eq (p : person) (f : Fault) (a : DB) :
    person.updatePerson p f a =
      (match f.stmt with
        | some e => (some (GoError.driver e),
            { a with log := a.log ++ [Stmt.updateById p.Name p.Age p.Gender p.ID] })
        | none => (none,
            { people := a.people.map (setColumns p.Name p.Age p.Gender p.ID),
              people_id_seq := a.people_id_seq,
              log := a.log ++ [Stmt.updateById p.Name p.Age p.Gender p.ID] })) := by
  unfold person.updatePerson DB.run
  cases hf : f.stmt <;> rfl

theorem person_deletePerson_eq (p : person) (f : Fault) (a : DB) :
    person.deletePerson p f a =
      (match f.stmt with
        | some e => (some (GoError.driver e), { a with log := a.log ++ [Stmt.deleteById p.ID] })
        | none => (none,
            { people := a.people.filter (fun r => r.ID ≠ p.ID),
              people_id_seq := a.people_id_seq,
              log := a.log ++ [Stmt.deleteById p.ID] })) := by
  unfold person.deletePerson DB.run
  cases hf : f.stmt <;> rfl

theorem person_createPerson_eq (p : person) (f : Fault) (a : DB) :
    person.createPerson p f a =
      (match f.stmt with
        | some e => ((p, some (GoError.driver e)),
            { a with log := a.log ++ [Stmt.insertReturningId p.Name p.Age p.Gender] })
        | none =>
          if a.people.any (fun r => r.ID = a.people_id_seq) then
            ((p, some (GoError.driver
              "pq: duplicate key value violates unique constraint \"people_pkey\"")),
             { people := a.people, people_id_seq := a.people_id_seq + 1,
               log := a.log ++ [Stmt.insertReturningId p.Name p.Age p.Gender] })
          else
            match f.scan 0 with
            | some e => ((p, some (GoError.driver e)),
               { people := a.people ++ [⟨a.people_id_seq, p.Name, p.Age, p.Gender⟩],
                 people_id_seq := a.people_id_seq + 1,
                 log := a.log ++ [Stmt.insertReturningId p.Name p.Age p.Gender] })
            | none => ((⟨a.people_id_seq, p.Name, p.Age, p.Gender⟩, none),
               { people := a.people ++ [⟨a.people_id_seq, p.Name, p.Age, p.Gender⟩],
                 people_id_seq := a.people_id_seq + 1,
                 log := a.log ++ [Stmt.insertReturningId p.Name p.Age p.Gender] })) := by
  unfold person.createPerson DB.run RowScan
  cases hf : f.stmt with
  | some e => rfl
  | none =>
    simp only
    split_ifs
    · rfl
    · simp only
      cases hs : f.scan 0 <;> rfl

theorem App_updatePerson_eq (f : Fault) (a : App) (idVar : String) (id : Int) (p0 : person)
    (h : Atoi idVar = (id, none)) :
    App.updatePerson f a idVar (some p0) =
      (match (person.updatePerson ⟨id, p0.Name, p0.Age, p0.Gender⟩ f a).1 with
        | some err => respondWithError 500 err.Error
        | none => respondWithJSON 200 (Payload.person ⟨id, p0.Name, p0.Age, p0.Gender⟩),
       (person.updatePerson ⟨id, p0.Name, p0.Age, p0.Gender⟩ f a).2) := by
  unfold App.updatePerson
  rw [h]
  simp only
  generalize person.updatePerson _ f a = r
  obtain ⟨err, a1⟩ := r
  cases err <;> rfl

theorem App_deletePerson_eq (f : Fault) (a : App) (idVar : String) (id : Int)
    (h : Atoi idVar = (id, none)) :
    App.deletePerson f a idVar =
      (match (person.deletePerson ⟨id, "", 0, ""⟩ f a).1 with
        | some err => respondWithError 500 err.Error
        | none => respondWithJSON 200 (Payload.entry "result" "success"),
       (person.deletePerson ⟨id, "", 0, ""⟩ f a).2) := by
  unfold App.deletePerson
  rw [h]
  simp only
  generalize person.deletePerson _ f a = r
  obtain ⟨err, a1⟩ := r
  cases err <;> rfl

theorem App_createPerson_eq (f : Fault) (a : App) (p : person) :
    App.createPerson f a (some p) =
      (match (person.createPerson p f a).1 with
        | (_, some err) => respondWithError 500 err.Error
        | (p1, none) => respondWithJSON 201 (Payload.person p1),
       (person.createPerson p f a).2) := by
  unfold App.createPerson
  simp only
  generalize person.createPerson p f a = r
  obtain ⟨⟨p1, err⟩, a1⟩ := r
  cases err <;> rfl

/-! ## The update, delete and create handlers -/

/-- C4: when the path id parses, the body decodes and the storage update reports no
error, the update handler responds 200 with the person made of the path id (the id
of the body is overwritten) and the name, age and gender decoded from the body,
whatever the database holds. -/
theorem updatePerson_handler_echo (f : Fault) (a : App) (idVar : String) (id : Int)
    (p0 : person) (h : Atoi idVar = (id, none))
    (hok : (person.updatePerson { p0 with ID := id } f a).1 = none) :
    (App.updatePerson f a idVar (some p0)).1 =
      respondWithJSON 200 (Payload.person ⟨id, p0.Name, p0.Age, p0.Gender⟩) := by
  rw [App_updatePerson_eq f a idVar id p0 h]
  have hok2 : (person.updatePerson ⟨id, p0.Name, p0.Age, p0.Gender⟩ f a).1 = none := hok
  simp only [hok2]

/-- Witness of C4: the update of `TestUpdatePerson`, with an id in the body. -/
theorem updatePerson_handler_echo_witness :
    Atoi "1" = (1, none) ∧
    (App.updatePerson Fault.ok ⟨[⟨1, "Person 0", 10, "male"⟩], 2, []⟩ "1"
        (some ⟨7, "test", 123, ""⟩)).1 =
      respondWithJSON 200 (Payload.person ⟨1, "test", 123, ""⟩) :=
  ⟨by decide, updatePerson_handler_echo Fault.ok ⟨[⟨1, "Person 0", 10, "male"⟩], 2, []⟩ "1" 1
    ⟨7, "test", 123, ""⟩ (by decide) (by decide)⟩

/-- C5: a delete whose storage call does not fail responds 200 with
the envelope result/success whether or not a row has the id; when none has it the table
and the sequence are unchanged; a second delete of the same id gives the same
response and leaves table and sequence as the first one did. -/
theorem deletePerson_handler_idempotent (f f2 : Fault) (a : App) (idVar : String) (id : Int)
    (h : Atoi idVar = (id, none))
    (hok : (person.deletePerson ⟨id, "", 0, ""⟩ f a).1 = none)
    (hok2 : (person.deletePerson ⟨id, "", 0, ""⟩ f2 (App.deletePerson f a idVar).2).1 = none) :
    (App.deletePerson f a idVar).1 = respondWithJSON 200 (Payload.entry "result" "success") ∧
    (App.deletePerson f a idVar).1.body = "\x7b\"result\":\"success\"\x7d" ∧
    ((∀ r ∈ a.people, r.ID ≠ id) →
      (App.deletePerson f a idVar).2.people = a.people ∧
      (App.deletePerson f a idVar).2.people_id_seq = a.people_id_seq) ∧
    (App.deletePerson f2 (App.deletePerson f a idVar).2 idVar).1 =
      (App.deletePerson f a idVar).1 ∧
    (App.deletePerson f2 (App.deletePerson f a idVar).2 idVar).2.people =
      (App.deletePerson f a idVar).2.people ∧
    (App.deletePerson f2 (App.deletePerson f a idVar).2 idVar).2.people_id_seq =
      (App.deletePerson f a idVar).2.people_id_seq := by
  have hf : f.stmt = none := by
    rw [person_deletePerson_eq] at hok
    cases hf : f.stmt with
    | none => rfl
    | some e => rw [hf] at hok; simp at hok
  have hf2 : f2.stmt = none := by
    rw [person_deletePerson_eq] at hok2
    cases hf : f2.stmt with
    | none => rfl
    | some e => rw [hf] at hok2; simp at hok2
  rw [App_deletePerson_eq f2 _ idVar id h, App_deletePerson_eq f a idVar id h,
    person_deletePerson_eq, person_deletePerson_eq, hf, hf2]
  refine ⟨rfl, rfl, ?_, rfl, ?_, rfl⟩
  · intro hall
    refine ⟨?_, rfl⟩
    simp only
    rw [List.filter_eq_self]
    intro r hr
    simpa using hall r hr
  · simp only
    rw [List.filter_filter]
    simp

/-- Witness of C5: deleting id 1 twice from a table that holds it. -/
theorem deletePerson_handler_idempotent_witness :
    Atoi "1" = (1, none) ∧
    (App.deletePerson Fault.ok ⟨[⟨1, "Person 0", 10, "male"⟩], 2, []⟩ "1").1.code = 200 ∧
    (App.deletePerson Fault.ok
      (App.deletePerson Fault.ok ⟨[⟨1, "Person 0", 10, "male"⟩], 2, []⟩ "1").2 "1").1 =
      (App.deletePerson Fault.ok ⟨[⟨1, "Person 0", 10, "male"⟩], 2, []⟩ "1").1 := by
  have h := deletePerson_handler_idempotent Fault.ok Fault.ok
    ⟨[⟨1, "Person 0", 10, "male"⟩], 2, []⟩ "1" 1 (by decide) (by decide) (by decide)
  exact ⟨by decide, by rw [h.1]; rfl, h.2.2.2.1⟩

/-! ## Delete then get, create then get, update -/

theorem stmt_none_of_delete_ok (p : person) (f : Fault) (a : DB)
    (hok : (person.deletePerson p f a).1 = none) : f.stmt = none := by
  rw [person_deletePerson_eq] at hok
  cases hf : f.stmt with
  | none => rfl
  | some e => rw [hf] at hok; simp at hok

theorem stmt_none_of_update_ok (p : person) (f : Fault) (a : DB)
    (hok : (person.updatePerson p f a).1 = none) : f.stmt = none := by
  rw [person_updatePerson_eq] at hok
  cases hf : f.stmt with
  | none => rfl
  | some e => rw [hf] at hok; simp at hok

theorem filter_id_after_delete (l : List person) (id oid : Int) (hne : oid ≠ id) :
    (l.filter (fun r => r.ID ≠ id)).filter (fun r => r.ID = oid) =
      l.filter (fun r => r.ID = oid) := by
  rw [List.filter_filter]
  apply List.filter_congr
  intro r _
  by_cases h1 : r.ID = oid
  · simp [h1, hne]
  · simp [h1]

theorem filter_id_after_delete_same (l : List person) (id : Int) :
    (l.filter (fun r => r.ID ≠ id)).filter (fun r => r.ID = id) = [] := by
  rw [List.filter_filter, List.filter_eq_nil_iff]
  intro r _
  simp

/-- C6: for an id held by some row, with a delete that reports no error and a
lookup that the driver lets through: the get before the delete responds 200, the
get after it responds 404 "Person not found", and the get of every other id
responds after the delete exactly as it did before. -/
theorem delete_then_get (fd fg : Fault) (a : App) (idVar : String) (id : Int)
    (h : Atoi idVar = (id, none))
    (hpres : ∃ r ∈ a.people, r.ID = id)
    (hdel : (person.deletePerson ⟨id, "", 0, ""⟩ fd a).1 = none)
    (hg : fg.stmt = none) (hs : fg.scan 0 = none) :
    (App.getPerson fg a idVar).1.code = 200 ∧
    (App.getPerson fg (App.deletePerson fd a idVar).2 idVar).1 =
      respondWithError 404 "Person not found" ∧
    (∀ (f : Fault) (other : String) (oid : Int), Atoi other = (oid, none) → oid ≠ id →
      (App.getPerson f (App.deletePerson fd a idVar).2 other).1 =
        (App.getPerson f a other).1) := by
  have hfd := stmt_none_of_delete_ok _ fd a hdel
  refine ⟨?_, ?_, ?_⟩
  · rw [App_getPerson_eq fg a idVar id h, person_getPerson_eq, hg]
    obtain ⟨r, hr, hid⟩ := hpres
    have hmem : r ∈ a.people.filter (fun r => r.ID = id) := by
      simp [List.mem_filter, hr, hid]
    cases hrows : a.people.filter (fun r => r.ID = id) with
    | nil => rw [hrows] at hmem; simp at hmem
    | cons r0 rest => simp [hs]
  · rw [App_getPerson_eq fg _ idVar id h, person_getPerson_eq, hg,
      App_deletePerson_eq fd a idVar id h, person_deletePerson_eq, hfd]
    simp only
    rw [filter_id_after_delete_same]
  · intro f other oid ho hne
    rw [App_getPerson_eq f _ other oid ho, App_getPerson_eq f a other oid ho,
      person_getPerson_eq, person_getPerson_eq,
      App_deletePerson_eq fd a idVar id h, person_deletePerson_eq, hfd]
    simp only
    rw [filter_id_after_delete _ _ _ hne]

/-- Witness of C6: the three requests of `TestDeletePerson` on a table of two rows. -/
theorem delete_then_get_witness :
    (App.getPerson Fault.ok
      ⟨[⟨1, "Person 0", 10, "male"⟩, ⟨2, "Person 1", 11, "male"⟩], 3, []⟩ "1").1.code = 200 ∧
    (App.getPerson Fault.ok (App.deletePerson Fault.ok
      ⟨[⟨1, "Person 0", 10, "male"⟩, ⟨2, "Person 1", 11, "male"⟩], 3, []⟩ "1").2 "1").1.code = 404 ∧
    (App.getPerson Fault.ok (App.deletePerson Fault.ok
      ⟨[⟨1, "Person 0", 10, "male"⟩, ⟨2, "Person 1", 11, "male"⟩], 3, []⟩ "1").2 "2").1 =
      respondWithJSON 200 (Payload.person ⟨2, "Person 1", 11, "male"⟩) := by
  have h := delete_then_get Fault.ok Fault.ok
    ⟨[⟨1, "Person 0", 10, "male"⟩, ⟨2, "Person 1", 11, "male"⟩], 3, []⟩ "1" 1
    (by decide) ⟨⟨1, "Person 0", 10, "male"⟩, by decide, rfl⟩ (by decide) rfl rfl
  refine ⟨h.1, by rw [h.2.1]; rfl, ?_⟩
  rw [h.2.2 Fault.ok "2" 2 (by decide) (by decide)]
  decide

theorem clearTable_eq (a : App) :
    clearTable a = { people := [], people_id_seq := 1,
                     log := a.log ++ [Stmt.deleteAll] ++ [Stmt.restartSeq] } := rfl

theorem create_ok_iff (p : person) (f : Fault) (a : DB) :
    (person.createPerson p f a).1.2 = none ↔
      f.stmt = none ∧ (∀ r ∈ a.people, r.ID ≠ a.people_id_seq) ∧ f.scan 0 = none := by
  rw [person_createPerson_eq]
  cases hf : f.stmt with
  | some e => simp
  | none =>
    simp only
    by_cases hany : a.people.any (fun r => r.ID = a.people_id_seq) = true
    · rw [if_pos hany]
      simp only [List.any_eq_true, decide_eq_true_eq] at hany
      obtain ⟨r, hr, hid⟩ := hany
      simp only [reduceCtorEq, true_and, false_iff, not_and]
      intro hall
      exact absurd hid (hall r hr)
    · rw [if_neg hany]
      have hall : ∀ r ∈ a.people, r.ID ≠ a.people_id_seq := by
        intro r hr hid
        apply hany
        simp only [List.any_eq_true, decide_eq_true_eq]
        exact ⟨r, hr, hid⟩
      cases hs : f.scan 0 with
      | some e => simp
      | none => simpa using hall

/-- C7: when the insert reports no error, the create handler responds 201 with the
person made of the id drawn from the sequence (not the id of the body) and the
submitted name, age and gender; a get by that id then responds 200 with the same
person; on a freshly cleared table the id is 1. -/
theorem create_then_get (f fg : Fault) (a : App) (p : person) (idVar : String)
    (hok : (person.createPerson p f a).1.2 = none)
    (hid : Atoi idVar = (a.people_id_seq, none))
    (hg : fg.stmt = none) (hs : fg.scan 0 = none) :
    (App.createPerson f a (some p)).1 =
      respondWithJSON 201 (Payload.person ⟨a.people_id_seq, p.Name, p.Age, p.Gender⟩) ∧
    (App.getPerson fg (App.createPerson f a (some p)).2 idVar).1 =
      respondWithJSON 200 (Payload.person ⟨a.people_id_seq, p.Name, p.Age, p.Gender⟩) ∧
    (∀ a0 : App, (App.createPerson Fault.ok (clearTable a0) (some p)).1 =
      respondWithJSON 201 (Payload.person ⟨1, p.Name, p.Age, p.Gender⟩)) := by
  obtain ⟨hf, hall, hsc⟩ := (create_ok_iff p f a).mp hok
  have hany : ¬ (a.people.any (fun r => r.ID = a.people_id_seq) = true) := by
    simp only [List.any_eq_true, decide_eq_true_eq]
    rintro ⟨r, hr, hid⟩
    exact hall r hr hid
  refine ⟨?_, ?_, ?_⟩
  · rw [App_createPerson_eq, person_createPerson_eq, hf]
    simp only
    rw [if_neg hany, hsc]
  · rw [App_getPerson_eq fg _ idVar _ hid, person_getPerson_eq, hg,
      App_createPerson_eq, person_createPerson_eq, hf]
    simp only
    rw [if_neg hany, hsc]
    simp only
    have hfil : a.people.filter (fun r => r.ID = a.people_id_seq) = [] := by
      rw [List.filter_eq_nil_iff]
      intro r hr
      simpa using hall r hr
    rw [List.filter_append, hfil]
    simp [hs]
  · intro a0
    rw [App_createPerson_eq, person_createPerson_eq, clearTable_eq]
    rfl

/-- Witness of C7: the request of `TestCreatePerson`, with an id in the body. -/
theorem create_then_get_witness :
    (App.createPerson Fault.ok (clearTable ⟨[⟨4, "x", 1, "y"⟩], 9, []⟩)
        (some ⟨55, "test", 123, "male"⟩)).1 =
      respondWithJSON 201 (Payload.person ⟨1, "test", 123, "male"⟩) ∧
    (App.getPerson Fault.ok (App.createPerson Fault.ok (clearTable ⟨[⟨4, "x", 1, "y"⟩], 9, []⟩)
        (some ⟨55, "test", 123, "male"⟩)).2 "1").1 =
      respondWithJSON 200 (Payload.person ⟨1, "test", 123, "male"⟩) :=
  ⟨(create_then_get Fault.ok Fault.ok (clearTable ⟨[⟨4, "x", 1, "y"⟩], 9, []⟩)
      ⟨55, "test", 123, "male"⟩ "1" (by decide) (by decide) rfl rfl).1,
   (create_then_get Fault.ok Fault.ok (clearTable ⟨[⟨4, "x", 1, "y"⟩], 9, []⟩)
      ⟨55, "test", 123, "male"⟩ "1" (by decide) (by decide) rfl rfl).2.1⟩

/-- C8: an update that reports no error keeps the number of rows and the sequence,
turns every row whose id is the given id into the given name, age and gender and
leaves every other row as it was; the same call reports no error on any table;
when no row has the id the table is unchanged, and the update handler responds
200 with table and sequence unchanged. -/
theorem updatePerson_frame (f : Fault) (a : DB) (p : person)
    (hok : (person.updatePerson p f a).1 = none) :
    (person.updatePerson p f a).2.people.length = a.people.length ∧
    (person.updatePerson p f a).2.people_id_seq = a.people_id_seq ∧
    (∀ (i : Nat) (r : person), a.people[i]? = some r →
      (person.updatePerson p f a).2.people[i]? =
        some (if r.ID = p.ID then ⟨p.ID, p.Name, p.Age, p.Gender⟩ else r)) ∧
    (∀ a0 : DB, (person.updatePerson p f a0).1 = none) ∧
    ((∀ r ∈ a.people, r.ID ≠ p.ID) →
      (person.updatePerson p f a).2.people = a.people ∧
      ∀ (idVar : String), Atoi idVar = (p.ID, none) →
        (App.updatePerson f a idVar (some p)).1.code = 200 ∧
        (App.updatePerson f a idVar (some p)).2.people = a.people ∧
        (App.updatePerson f a idVar (some p)).2.people_id_seq = a.people_id_seq) := by
  have hf := stmt_none_of_update_ok p f a hok
  have hmap : (∀ r ∈ a.people, r.ID ≠ p.ID) →
      a.people.map (setColumns p.Name p.Age p.Gender p.ID) = a.people := by
    intro hall
    conv_rhs => rw [← List.map_id a.people]
    apply List.map_congr_left
    intro r hr
    simp [setColumns, hall r hr]
  refine ⟨?_, ?_, ?_, ?_, ?_⟩
  · rw [person_updatePerson_eq, hf]; simp
  · rw [person_updatePerson_eq, hf]
  · intro i r hi
    rw [person_updatePerson_eq, hf]
    simp only [List.getElem?_map, hi, Option.map_some', setColumns]
    split_ifs with hrid
    · rw [← hrid]
    · rfl
  · intro a0
    rw [person_updatePerson_eq, hf]
  · intro hall
    refine ⟨?_, ?_⟩
    · rw [person_updatePerson_eq, hf]
      exact hmap hall
    · intro idVar hid
      have hp : (⟨p.ID, p.Name, p.Age, p.Gender⟩ : person) = p := rfl
      rw [App_updatePerson_eq f a idVar p.ID p hid, hp, person_updatePerson_eq, hf]
      exact ⟨rfl, hmap hall, rfl⟩

/-- Witness of C8: the second of two rows is overwritten, the first is kept. -/
theorem updatePerson_frame_witness :
    (person.updatePerson ⟨2, "test", 123, ""⟩ Fault.ok
      ⟨[⟨1, "Person 0", 10, "male"⟩, ⟨2, "Person 1", 11, "male"⟩], 3, []⟩).2.people =
      [⟨1, "Person 0", 10, "male"⟩, ⟨2, "test", 123, ""⟩] ∧
    (person.updatePerson ⟨2, "test", 123, ""⟩ Fault.ok
      ⟨[⟨1, "Person 0", 10, "male"⟩, ⟨2, "Person 1", 11, "male"⟩], 3, []⟩).2.people.length = 2 := by
  have h := updatePerson_frame Fault.ok
    ⟨[⟨1, "Person 0", 10, "male"⟩, ⟨2, "Person 1", 11, "male"⟩], 3, []⟩ ⟨2, "test", 123, ""⟩
    (by decide)
  exact ⟨by decide, h.1⟩

/-! ## Rejected requests -/

theorem parseUintLoop_digits (cs : List Char) (n : Nat) (h : cs.all Char.isDigit = true) :
    (parseUintLoop cs n).2 ≠ some NumError.ErrSyntax := by
  induction cs generalizing n with
  | nil => simp [parseUintLoop]
  | cons c cs ih =>
    simp only [List.all_cons, Bool.and_eq_true] at h
    unfold parseUintLoop
    rw [if_pos h.1]
    simp only
    split_ifs
    · simp
    · simp
    · exact ih _ h.2

theorem Atoi_of_idPattern (s : String) (h : matchesIdPattern s = true) :
    (Atoi s).2 ≠ some NumError.ErrSyntax := by
  unfold matchesIdPattern at h
  simp only [Bool.and_eq_true, Bool.not_eq_true', List.isEmpty_eq_false] at h
  obtain ⟨hne, hall⟩ := h
  unfold Atoi ParseInt
  cases hs : s.toList with
  | nil => exact absurd hs hne
  | cons c cs =>
    rw [hs] at hall
    have hc : c.isDigit = true := by
      simp only [List.all_cons, Bool.and_eq_true] at hall
      exact hall.1
    have hplus : ¬ ((c == '+') = true ∨ (c == '-') = true) := by
      rintro (h1 | h1)
      · have : c = '+' := by simpa using h1
        rw [this] at hc; exact absurd hc (by decide)
      · have : c = '-' := by simpa using h1
        rw [this] at hc; exact absurd hc (by decide)
    simp only
    rw [if_neg hplus]
    have hloop := parseUintLoop_digits (c :: cs) 0 hall
    have hpu : ParseUint (c :: cs) = parseUintLoop (c :: cs) 0 := rfl
    rw [hpu]
    generalize parseUintLoop (c :: cs) 0 = r at hloop ⊢
    obtain ⟨un, err⟩ := r
    rcases err with _ | e'
    · simp only
      split_ifs <;> simp
    · cases e'
      · exact absurd rfl hloop
      · simp only
        split_ifs <;> simp

/-- C9: a body that does not decode makes the create handler respond 400 "Invalid
request payload" and the update handler respond 400 ("Invalid resquest payload"
when the path id parses); a path id that does not parse makes the get and update
handlers respond 400 "Invalid person ID" and the delete handler 400 "Invalid
Person ID".  In each case the database, log of issued statements included, is
returned as it was. -/
theorem malformed_input_rejected (f : Fault) (a : App) (idVar : String) :
    App.createPerson f a none = (respondWithError 400 "Invalid request payload", a) ∧
    ((App.updatePerson f a idVar none).1.code = 400 ∧
      (App.updatePerson f a idVar none).2 = a ∧
      ((Atoi idVar).2 = none →
        (App.updatePerson f a idVar none).1 = respondWithError 400 "Invalid resquest payload")) ∧
    ((Atoi idVar).2 ≠ none →
      App.getPerson f a idVar = (respondWithError 400 "Invalid person ID", a) ∧
      (∀ body, App.updatePerson f a idVar body = (respondWithError 400 "Invalid person ID", a)) ∧
      App.deletePerson f a idVar = (respondWithError 400 "Invalid Person ID", a)) := by
  refine ⟨rfl, ?_, ?_⟩
  · unfold App.updatePerson
    generalize Atoi idVar = r
    obtain ⟨id, err⟩ := r
    cases err with
    | none => exact ⟨rfl, rfl, fun _ => rfl⟩
    | some e => exact ⟨rfl, rfl, fun h => absurd h (by simp)⟩
  · intro h
    unfold App.getPerson App.updatePerson App.deletePerson
    generalize Atoi idVar = r at h
    obtain ⟨id, err⟩ := r
    cases err with
    | none => exact absurd rfl h
    | some e => exact ⟨rfl, fun _ => rfl, rfl⟩

/-- Witness of C9: an id of twenty digits passes the route pattern and is rejected. -/
theorem malformed_input_rejected_witness :
    matchesIdPattern "99999999999999999999" = true ∧
    (Atoi "99999999999999999999").2 ≠ none ∧
    App.getPerson Fault.ok ⟨[⟨1, "Person 0", 10, "male"⟩], 2, []⟩ "99999999999999999999" =
      (respondWithError 400 "Invalid person ID", ⟨[⟨1, "Person 0", 10, "male"⟩], 2, []⟩) ∧
    App.deletePerson Fault.ok ⟨[⟨1, "Person 0", 10, "male"⟩], 2, []⟩ "99999999999999999999" =
      (respondWithError 400 "Invalid Person ID", ⟨[⟨1, "Person 0", 10, "male"⟩], 2, []⟩) := by
  have h := (malformed_input_rejected Fault.ok ⟨[⟨1, "Person 0", 10, "male"⟩], 2, []⟩
    "99999999999999999999").2.2 (by decide)
  exact ⟨by decide, by decide, h.1, h.2.2⟩

theorem scanLoop_ok (f : Fault) (rows : List person) (k : Nat) (acc : List person)
    (hn : ∀ j, j < rows.length → f.next (k + j) = none)
    (hs : ∀ j, j < rows.length → f.scan (k + j) = none) :
    scanLoop f rows k acc = (some (acc ++ rows), none) := by
  induction rows generalizing k acc with
  | nil => simp [scanLoop]
  | cons r rest ih =>
    unfold scanLoop
    have hn0 : f.next k = none := by simpa using hn 0 (by simp)
    have hs0 : f.scan k = none := by simpa using hs 0 (by simp)
    rw [hn0, hs0]
    simp only
    rw [ih (k + 1) _
      (fun j hj => by
        have := hn (j + 1) (by simpa using hj)
        rwa [Nat.add_assoc, Nat.add_comm 1 j])
      (fun j hj => by
        have := hs (j + 1) (by simpa using hj)
        rwa [Nat.add_assoc, Nat.add_comm 1 j])]
    simp

theorem scanLoop_of_no_error (f : Fault) (rows : List person) (k : Nat) (acc : List person)
    (h : (scanLoop f rows k acc).2 = none) :
    ∃ n, n ≤ rows.length ∧ (scanLoop f rows k acc).1 = some (acc ++ rows.take n) ∧
      (∀ j, j < n → f.next (k + j) = none ∧ f.scan (k + j) = none) ∧
      (n < rows.length → f.next (k + n) ≠ none) := by
  induction rows generalizing k acc with
  | nil => exact ⟨0, by simp, by simp [scanLoop], by simp, by simp⟩
  | cons r rest ih =>
    unfold scanLoop at h ⊢
    cases hnx : f.next k with
    | some e =>
      refine ⟨0, by simp, by simp, by simp, ?_⟩
      intro _
      simp [hnx]
    | none =>
      rw [hnx] at h
      simp only at h ⊢
      cases hs : f.scan k with
      | some e => rw [hs] at h; simp at h
      | none =>
        rw [hs] at h
        simp only at h ⊢
        obtain ⟨n, hle, hres, hall, hstop⟩ := ih (k + 1) _ h
        refine ⟨n + 1, by simpa using hle, ?_, ?_, ?_⟩
        · rw [hres]; simp
        · intro j hj
          cases j with
          | zero => exact ⟨hnx, hs⟩
          | succ i =>
            have := hall i (by omega)
            rwa [Nat.add_assoc, Nat.add_comm 1 i] at this
        · intro hlt
          have := hstop (by simpa using hlt)
          rwa [Nat.add_assoc, Nat.add_comm 1 n] at this

theorem scanLoop_cut (f : Fault) (rows : List person) (k : Nat) (acc : List person) (n : Nat)
    (hlt : n < rows.length)
    (hall : ∀ j, j < n → f.next (k + j) = none ∧ f.scan (k + j) = none)
    (hstop : f.next (k + n) ≠ none) :
    scanLoop f rows k acc = (some (acc ++ rows.take n), none) := by
  induction rows generalizing k acc n with
  | nil => simp at hlt
  | cons r rest ih =>
    unfold scanLoop
    cases n with
    | zero =>
      cases hnx : f.next k with
      | none => exact absurd hnx (by simpa using hstop)
      | some e => simp
    | succ m =>
      have h0 := hall 0 (by omega)
      simp only [Nat.add_zero] at h0
      rw [h0.1, h0.2]
      simp only
      rw [ih (k + 1) _ m (by simpa using hlt)
        (fun j hj => by
          have := hall (j + 1) (by omega)
          rwa [Nat.add_assoc, Nat.add_comm 1 j])
        (by rwa [Nat.add_assoc, Nat.add_comm 1 m])]
      simp

theorem getPeople_of_query (f : Fault) (a : DB) (start count : Int) (rows : List person)
    (hq : (a.run f (Stmt.selectRange count start)).1 = Except.ok rows) :
    (getPeople f a start count).1 = scanLoop f rows 0 [] := by
  unfold getPeople
  generalize a.run f (Stmt.selectRange count start) = r at hq
  obtain ⟨res, a1⟩ := r
  cases res with
  | error e => simp at hq
  | ok rs =>
    simp only [Except.ok.injEq] at hq
    rw [hq]

/-- C10: when the ranged query yields `rows` without error, `getPeople` returns the
empty non-nil slice if there are none; when in addition `rows.Next()` meets no
driver error, a return without error carries exactly `rows` in order, and that is
what is returned when no `Scan` fails.  The list handler responds 200 with body
`[]`, not `null`, on an empty result, in particular on an empty table.  In every
case a return without error carries the rows `Next` delivered, in order: those
before the position where `Next` stopped; when the driver fails there, the rows
after it are missing and no error is returned. -/
theorem getPeople_empty_not_nil (f : Fault) (a : DB) (start count : Int) (rows : List person)
    (hq : (a.run f (Stmt.selectRange count start)).1 = Except.ok rows) :
    (rows = [] → (getPeople f a start count).1 = (some [], none)) ∧
    ((∀ k, k < rows.length → f.next k = none) →
      (getPeople f a start count).1.2 = none →
      (getPeople f a start count).1.1 = some rows) ∧
    ((∀ k, k < rows.length → f.next k = none) →
      (∀ k, k < rows.length → f.scan k = none) →
      (getPeople f a start count).1 = (some rows, none)) ∧
    (∀ (countForm startForm : String),
      (if 0 ≤ (Atoi startForm).1 then (Atoi startForm).1 else 0) = start →
      (if 1 ≤ (Atoi countForm).1 ∧ (Atoi countForm).1 ≤ 10 then (Atoi countForm).1 else 10)
        = count →
      rows = [] →
      (App.getPeople f a countForm startForm).1 =
        respondWithJSON 200 (Payload.people (some [])) ∧
      (App.getPeople f a countForm startForm).1.code = 200 ∧
      (App.getPeople f a countForm startForm).1.body = "[]" ∧
      (App.getPeople f a countForm startForm).1.body ≠ "null") ∧
    (∀ (f0 : Fault) (a0 : DB) (countForm startForm : String),
      f0.stmt = none → a0.people = [] →
      (App.getPeople f0 a0 countForm startForm).1.code = 200 ∧
      (App.getPeople f0 a0 countForm startForm).1.body = "[]") ∧
    ((getPeople f a start count).1.2 = none →
      ∃ n, n ≤ rows.length ∧ (getPeople f a start count).1.1 = some (rows.take n) ∧
        (∀ j, j < n → f.next j = none ∧ f.scan j = none) ∧
        (n < rows.length → f.next n ≠ none)) ∧
    (∀ n, n < rows.length → (∀ j, j < n → f.next j = none ∧ f.scan j = none) →
      f.next n ≠ none →
      (getPeople f a start count).1 = (some (rows.take n), none)) := by
  have hg := getPeople_of_query f a start count rows hq
  refine ⟨?_, ?_, ?_, ?_, ?_, ?_, ?_⟩
  · intro hr
    rw [hg, hr]; rfl
  · intro hnx hn
    rw [hg] at hn ⊢
    obtain ⟨n, hle, hres, _, hstop⟩ := scanLoop_of_no_error f rows 0 [] hn
    have hn_eq : n = rows.length := by
      by_contra hne
      have hlt : n < rows.length := lt_of_le_of_ne hle hne
      have h1 := hstop hlt
      have h2 := hnx n hlt
      simp only [Nat.zero_add] at h1
      exact h1 h2
    rw [hres, hn_eq]
    simp
  · intro hnx hs
    rw [hg, scanLoop_ok f rows 0 [] (fun j hj => by simpa using hnx j hj)
      (fun j hj => by simpa using hs j hj)]
    simp
  · intro countForm startForm hst hct hr
    have hresp : (App.getPeople f a countForm startForm).1 =
        respondWithJSON 200 (Payload.people (some [])) := by
      rw [App_getPeople_eq, hst, hct, hg, hr]; rfl
    rw [hresp]
    exact ⟨rfl, rfl, rfl, by decide⟩
  · intro f0 a0 countForm startForm hf0 ha0
    have hl1 : ¬ ((if 1 ≤ (Atoi countForm).1 ∧ (Atoi countForm).1 ≤ 10 then (Atoi countForm).1
        else 10) < 0) := by split_ifs <;> omega
    have ho1 : ¬ ((if 0 ≤ (Atoi startForm).1 then (Atoi startForm).1 else 0) < 0) := by
      split_ifs <;> omega
    have hrun : (a0.run f0 (Stmt.selectRange
        (if 1 ≤ (Atoi countForm).1 ∧ (Atoi countForm).1 ≤ 10 then (Atoi countForm).1 else 10)
        (if 0 ≤ (Atoi startForm).1 then (Atoi startForm).1 else 0))).1 = Except.ok [] := by
      unfold DB.run
      rw [hf0]
      simp only
      rw [if_neg hl1, if_neg ho1, ha0]
      simp
    have hresp : (App.getPeople f0 a0 countForm startForm).1 =
        respondWithJSON 200 (Payload.people (some [])) := by
      rw [App_getPeople_eq, getPeople_of_query f0 a0 _ _ [] hrun]; rfl
    rw [hresp]
    exact ⟨rfl, rfl⟩
  · intro hn
    rw [hg] at hn ⊢
    obtain ⟨n, hle, hres, hall, hstop⟩ := scanLoop_of_no_error f rows 0 [] hn
    refine ⟨n, hle, by simpa using hres, fun j hj => by simpa using hall j hj, fun hlt => ?_⟩
    simpa using hstop hlt
  · intro n hlt hall hstop
    rw [hg, scanLoop_cut f rows 0 [] n hlt (fun j hj => by simpa using hall j hj)
      (by simpa using hstop)]
    simp

/-- Witness of C10: the request of `TestEmptyTable`, and a table of two rows read
back whole. -/
theorem getPeople_empty_not_nil_witness :
    (getPeople Fault.ok (clearTable ⟨[⟨1, "Person 0", 10, "male"⟩], 2, []⟩) 0 10).1 =
      (some [], none) ∧
    (App.getPeople Fault.ok (clearTable ⟨[⟨1, "Person 0", 10, "male"⟩], 2, []⟩) "" "").1.body =
      "[]" ∧
    (getPeople Fault.ok
      ⟨[⟨1, "Person 0", 10, "male"⟩, ⟨2, "Person 1", 11, "male"⟩], 3, []⟩ 0 10).1 =
      (some [⟨1, "Person 0", 10, "male"⟩, ⟨2, "Person 1", 11, "male"⟩], none) := by
  have h := getPeople_empty_not_nil Fault.ok (clearTable ⟨[⟨1, "Person 0", 10, "male"⟩], 2, []⟩)
    0 10 [] rfl
  have h2 := getPeople_empty_not_nil Fault.ok
    ⟨[⟨1, "Person 0", 10, "male"⟩, ⟨2, "Person 1", 11, "male"⟩], 3, []⟩ 0 10
    [⟨1, "Person 0", 10, "male"⟩, ⟨2, "Person 1", 11, "male"⟩] rfl
  exact ⟨h.1 rfl, (h.2.2.2.1 "" "" (by decide) (by decide) rfl).2.2.1,
    h2.2.2.1 (fun _ _ => rfl) (fun _ _ => rfl)⟩

/-- A driver failure while fetching the second of two rows: the loop ends there and
`getPeople` returns the first row alone with no error, so the list handler
responds 200 with that row. -/
theorem getPeople_next_failure_example :
    (getPeople ⟨none, fun _ => none, fun k => if k = 1 then some "driver: bad connection" else none⟩
      ⟨[⟨1, "Person 0", 10, "male"⟩, ⟨2, "Person 1", 11, "male"⟩], 3, []⟩ 0 10).1 =
      (some [⟨1, "Person 0", 10, "male"⟩], none) ∧
    (App.getPeople
      ⟨none, fun _ => none, fun k => if k = 1 then some "driver: bad connection" else none⟩
      ⟨[⟨1, "Person 0", 10, "male"⟩, ⟨2, "Person 1", 11, "male"⟩], 3, []⟩ "" "").1 =
      respondWithJSON 200 (Payload.people (some [⟨1, "Person 0", 10, "male"⟩])) := by
  decide

end PeopleApi
